import Mathlib

/-!
Verification of the PhysIKA geometric core: the `VolumetricMesh` storage and
query layer (`Physika_Geometry/Volumetric_Meshes/volumetric_mesh.h`) and the
2D vector type (`Physika_Core/Vectors/vector_2d.cpp`).

Modelling conventions:
* Raw C++ arrays passed to constructors are modelled as total functions
  `Nat → α` (a pointer with unbounded readable extent on the caller side).
* An owned heap buffer (`new T[n]` followed by `memcpy`) is a `Buf`:
  a length paired with the copied contents; reading it out of range is
  undefined behavior, surfaced as `Option.none`.
* A query returns a `QueryResult`: `ok` for a normal return, `fatal msg` for
  the diagnostic-then-`std::exit(EXIT_FAILURE)` path, and `ub` for an
  unchecked out-of-bounds buffer read (undefined behavior, no diagnostic).
* C++ `int` indices and counts are modelled as `Int` (overflow is ignored);
  scalars are modelled exactly (an arbitrary scalar type for the mesh, `ℝ`
  for the floating-point vector arithmetic).
* A `Vector<Scalar,Dim>` position returned by a mesh query is modelled as the
  list of its `Dim` components.
-/

namespace Physika

/-- Outcome of a mesh query: normal value, the fatal error path
(`std::cerr << msg` then `std::exit(EXIT_FAILURE)`), or an unchecked
out-of-bounds heap read (undefined behavior). -/
inductive QueryResult (α : Type) where
  | ok : α → QueryResult α
  | fatal : String → QueryResult α
  | ub : QueryResult α
deriving DecidableEq

/-- Whether a query outcome is the fatal (diagnostic + termination) path. -/
def QueryResult.isFatal {α : Type} : QueryResult α → Bool
  | .fatal _ => true
  | _ => false

/-- An owned heap buffer: `new α[len]` whose cells were filled by `memcpy`
from caller data. `data` records the copied contents; cells at or beyond
`len` are not owned. -/
structure Buf (α : Type) where
  len : Nat
  data : Nat → α

/-- Read `b[i]` with a C++ `int` index: in-range gives the stored value,
out-of-range is undefined behavior (`none`). -/
def Buf.read? {α : Type} (b : Buf α) (i : Int) : Option α :=
  if 0 ≤ i ∧ i.toNat < b.len then some (b.data i.toNat) else none

/-- Read the `n` consecutive cells `b[start], ..., b[start+n-1]`
(the `for(int i = 0; i < Dim; ++i) pos[i] = vertices_[Dim*vert_idx+i]` loop);
`none` as soon as any single read is out of range. -/
def Buf.readMany {α : Type} (b : Buf α) (start : Int) : Nat → Option (List α)
  | 0 => some []
  | n + 1 =>
    match b.read? start, b.readMany (start + 1) n with
    | some v, some l => some (v :: l)
    | _, _ => none

/-- Sum of the first `n` cells of `b`
(the `for(int i = 0; i < ele_idx; ++i) ele_idx_start += vert_per_ele_[i];`
loop); `none` if any read is out of range. -/
def Buf.sumRange (b : Buf Int) : Nat → Option Int
  | 0 => some 0
  | n + 1 =>
    match b.sumRange n, b.read? (n : Int) with
    | some s, some v => some (s + v)
    | _, _ => none

/-- `f 0 + f 1 + ... + f (n-1)`: the element-connectivity total computed by
`VolumetricMesh::init` in the non-uniform case. -/
def sumFirst (f : Nat → Int) : Nat → Int
  | 0 => 0
  | n + 1 => sumFirst f n + f n

/-- The state of a `VolumetricMesh<Scalar,Dim>` object: the protected fields
`vert_num_`, `vertices_`, `ele_num_`, `elements_`, `vert_per_ele_`,
`uniform_ele_type_`. -/
structure VolumetricMesh (S : Type) (Dim : Nat) where
  vert_num_ : Int
  vertices_ : Buf S
  ele_num_ : Int
  elements_ : Buf Int
  vert_per_ele_ : Buf Int
  uniform_ele_type_ : Bool

namespace VolumetricMesh

/-- `VolumetricMesh::init`: deep-copies the caller arrays into owned buffers.
`vertices_` gets `vert_num*Dim` scalars; in the uniform case `vert_per_ele_`
is a single-int buffer holding `*vert_per_ele` and the connectivity total is
`ele_num * (*vert_per_ele_)`; in the ragged case `vert_per_ele_` is an
`ele_num`-int buffer and the total is the sum of its entries. -/
def init (S : Type) (Dim : Nat) (vert_num : Int) (vertices : Nat → S)
    (ele_num : Int) (elements : Nat → Int) (vert_per_ele : Nat → Int)
    (uniform_ele_type : Bool) : VolumetricMesh S Dim :=
  { vert_num_ := vert_num
    vertices_ := ⟨(vert_num * (Dim : Int)).toNat, vertices⟩
    ele_num_ := ele_num
    elements_ :=
      ⟨(if uniform_ele_type then ele_num * vert_per_ele 0
        else sumFirst vert_per_ele ele_num.toNat).toNat, elements⟩
    vert_per_ele_ := ⟨if uniform_ele_type then 1 else ele_num.toNat, vert_per_ele⟩
    uniform_ele_type_ := uniform_ele_type }

/-- The uniform-topology constructor
`VolumetricMesh(vert_num, vertices, ele_num, elements, int vert_per_ele)`:
calls `init` with `&vert_per_ele` and `uniform_ele_type = true`. -/
def mkUniform (S : Type) (Dim : Nat) (vert_num : Int) (vertices : Nat → S)
    (ele_num : Int) (elements : Nat → Int) (vert_per_ele : Int) :
    VolumetricMesh S Dim :=
  init S Dim vert_num vertices ele_num elements (fun _ => vert_per_ele) true

/-- The ragged constructor
`VolumetricMesh(vert_num, vertices, ele_num, elements, const int *vert_per_ele_list)`:
calls `init` with the list and `uniform_ele_type = false`. -/
def mkRagged (S : Type) (Dim : Nat) (vert_num : Int) (vertices : Nat → S)
    (ele_num : Int) (elements : Nat → Int) (vert_per_ele_list : Nat → Int) :
    VolumetricMesh S Dim :=
  init S Dim vert_num vertices ele_num elements vert_per_ele_list false

/-- `vertNum()`. -/
def vertNum {S : Type} {Dim : Nat} (m : VolumetricMesh S Dim) : Int :=
  m.vert_num_

/-- `eleNum()`. -/
def eleNum {S : Type} {Dim : Nat} (m : VolumetricMesh S Dim) : Int :=
  m.ele_num_

/-- `isUniformElementType()`. -/
def isUniformElementType {S : Type} {Dim : Nat} (m : VolumetricMesh S Dim) : Bool :=
  m.uniform_ele_type_

/-- `eleVertNum(ele_idx)`:
`uniform_ele_type_ ? (*vert_per_ele_) : (vert_per_ele_[ele_idx])`.
No bounds check of its own: the only failure mode is an out-of-range array
read (`ub`), never the fatal diagnostic path. -/
def eleVertNum {S : Type} {Dim : Nat} (m : VolumetricMesh S Dim)
    (ele_idx : Int) : QueryResult Int :=
  if m.uniform_ele_type_ then
    match m.vert_per_ele_.read? 0 with
    | some k => .ok k
    | none => .ub
  else
    match m.vert_per_ele_.read? ele_idx with
    | some k => .ok k
    | none => .ub

/-- `vertPos(vert_idx)`: fatal if `vert_idx` is outside `[0, vert_num_)`,
otherwise the `Dim` scalars `vertices_[Dim*vert_idx .. Dim*vert_idx+Dim-1]`. -/
def vertPos {S : Type} {Dim : Nat} (m : VolumetricMesh S Dim)
    (vert_idx : Int) : QueryResult (List S) :=
  if vert_idx < 0 ∨ m.vert_num_ ≤ vert_idx then
    .fatal "vertex index out of range!"
  else
    match m.vertices_.readMany ((Dim : Int) * vert_idx) Dim with
    | some pos => .ok pos
    | none => .ub

/-- `eleVertPos(ele_idx, vert_idx)`: fatal if `ele_idx` outside
`[0, ele_num_)`; then, per topology flag, fatal if `vert_idx` outside
`[0, per-element count)`; start offset is `ele_idx * (*vert_per_ele_)`
(uniform) or the sum of `vert_per_ele_[0..ele_idx-1]` (ragged); finally
delegates to `vertPos(elements_[start + vert_idx])`. -/
def eleVertPos {S : Type} {Dim : Nat} (m : VolumetricMesh S Dim)
    (ele_idx vert_idx : Int) : QueryResult (List S) :=
  if ele_idx < 0 ∨ m.ele_num_ ≤ ele_idx then
    .fatal "element index out of range!"
  else if m.uniform_ele_type_ then
    match m.vert_per_ele_.read? 0 with
    | none => .ub
    | some k =>
      if vert_idx < 0 ∨ k ≤ vert_idx then
        .fatal "vert_idx out of range"
      else
        match m.elements_.read? (ele_idx * k + vert_idx) with
        | none => .ub
        | some global_vert_idx => m.vertPos global_vert_idx
  else
    match m.vert_per_ele_.read? ele_idx with
    | none => .ub
    | some k =>
      if vert_idx < 0 ∨ k ≤ vert_idx then
        .fatal "vert_idx out of range"
      else
        match m.vert_per_ele_.sumRange ele_idx.toNat with
        | none => .ub
        | some ele_idx_start =>
          match m.elements_.read? (ele_idx_start + vert_idx) with
          | none => .ub
          | some global_vert_idx => m.vertPos global_vert_idx

end VolumetricMesh

/-- The state of a `Vector2D<Scalar>`: two components, indices 0 and 1. -/
structure Vector2D (S : Type) where
  x : S
  y : S
deriving DecidableEq

namespace Vector2D

variable {S : Type}

/-- `operator+`: component-wise sum into a fresh vector. -/
def add [Add S] (a b : Vector2D S) : Vector2D S :=
  ⟨a.x + b.x, a.y + b.y⟩

/-- Binary `operator-`: component-wise difference into a fresh vector. -/
def sub [Sub S] (a b : Vector2D S) : Vector2D S :=
  ⟨a.x - b.x, a.y - b.y⟩

/-- Unary `operator-`: `Vector2D(-x, -y)`. -/
def neg [Neg S] (a : Vector2D S) : Vector2D S :=
  ⟨-a.x, -a.y⟩

/-- `operator*` by a scalar. -/
def smul [Mul S] (a : Vector2D S) (scale : S) : Vector2D S :=
  ⟨a.x * scale, a.y * scale⟩

/-- `operator/` by a scalar. -/
def sdiv [Div S] (a : Vector2D S) (scale : S) : Vector2D S :=
  ⟨a.x / scale, a.y / scale⟩

/-- `operator=`: the loop `for(i = 0; i < 2; ++i) (*this)[i] = vec2[i];`
overwrites both components of the target with the source's. -/
def assign (_self vec2 : Vector2D S) : Vector2D S :=
  ⟨vec2.x, vec2.y⟩

/-- The copy constructor `Vector2D(const Vector2D &vec2) { *this = vec2; }`:
delegates to `operator=` from the uninitialized state `uninit`. -/
def copyConstruct (vec2 uninit : Vector2D S) : Vector2D S :=
  assign uninit vec2

/-- `operator==`: the loop returns `false` at the first component that
compares unequal, else `true` (exact comparison, no tolerance). -/
def beqV [DecidableEq S] (a vec2 : Vector2D S) : Bool :=
  if a.x ≠ vec2.x then false
  else if a.y ≠ vec2.y then false
  else true

/-- `dot(vec2)`: `(*this)[0]*vec2[0] + (*this)[1]*vec2[1]`. -/
def dot [Mul S] [Add S] (a vec2 : Vector2D S) : S :=
  a.x * vec2.x + a.y * vec2.y

/-- `cross(vec2)` (2D scalar cross product):
`(*this)[0]*vec2[1] - (*this)[1]*vec2[0]`. -/
def cross [Mul S] [Sub S] (a vec2 : Vector2D S) : S :=
  a.x * vec2.y - a.y * vec2.x

/-- `norm()`: square root of the sum of squared components. -/
noncomputable def norm (a : Vector2D ℝ) : ℝ :=
  Real.sqrt (a.x * a.x + a.y * a.y)

/-- `normalize()`: `if(norm)` — when the norm is nonzero, divide each
component by it; when the norm is exactly zero, leave the vector unchanged. -/
noncomputable def normalize (a : Vector2D ℝ) : Vector2D ℝ :=
  if a.norm ≠ 0 then ⟨a.x / a.norm, a.y / a.norm⟩ else a

end Vector2D

/-! ### Helper lemmas -/

theorem toNat_mul_nonneg (a b : Int) (ha : 0 ≤ a) (hb : 0 ≤ b) :
    (a * b).toNat = a.toNat * b.toNat := by
  rcases Int.eq_ofNat_of_zero_le ha with ⟨m, rfl⟩
  rcases Int.eq_ofNat_of_zero_le hb with ⟨n, rfl⟩
  rw [← Int.natCast_mul, Int.toNat_natCast, Int.toNat_natCast, Int.toNat_natCast]

theorem Buf.read?_eq_some {α : Type} (b : Buf α) (i : Int)
    (h0 : 0 ≤ i) (h : i.toNat < b.len) :
    b.read? i = some (b.data i.toNat) := by
  simp [Buf.read?, h0, h]

theorem Buf.of_read?_eq_some {α : Type} {b : Buf α} {i : Int} {v : α}
    (h : b.read? i = some v) :
    0 ≤ i ∧ i.toNat < b.len ∧ v = b.data i.toNat := by
  unfold Buf.read? at h
  split at h
  · rename_i hc
    exact ⟨hc.1, hc.2, (Option.some_injective _ h).symm⟩
  · exact absurd h (by simp)

theorem Buf.readMany_eq_map {α : Type} (b : Buf α) :
    ∀ (n : Nat) (start : Int), 0 ≤ start → start.toNat + n ≤ b.len →
      b.readMany start n =
        some ((List.range n).map fun j => b.data (start.toNat + j))
  | 0, start, _, _ => by
    simp [Buf.readMany]
  | n + 1, start, h0, h => by
    have hlt : start.toNat < b.len := by omega
    have hs1 : (start + 1).toNat = start.toNat + 1 := by omega
    have ih := Buf.readMany_eq_map b n (start + 1) (by omega) (by omega)
    rw [Buf.readMany, Buf.read?_eq_some b start h0 hlt, ih]
    rw [List.range_succ_eq_map, List.map_cons, List.map_map]
    refine congrArg some (List.cons_eq_cons.mpr ⟨by rw [Nat.add_zero], ?_⟩)
    refine List.map_congr_left fun j _ => ?_
    simp only [Function.comp_apply, hs1]
    exact congrArg b.data (by omega)

theorem Buf.sumRange_eq_sumFirst (b : Buf Int) :
    ∀ n : Nat, n ≤ b.len → b.sumRange n = some (sumFirst b.data n)
  | 0, _ => by simp [Buf.sumRange, sumFirst]
  | n + 1, h => by
    have ih := Buf.sumRange_eq_sumFirst b n (by omega)
    have hr : b.read? (n : Int) = some (b.data n) := by
      apply Buf.read?_eq_some
      · exact Int.natCast_nonneg n
      · rw [Int.toNat_natCast]; omega
    rw [Buf.sumRange, ih, hr, sumFirst]

theorem sumFirst_const (k : Int) : ∀ n : Nat, sumFirst (fun _ => k) n = n * k
  | 0 => by simp [sumFirst]
  | n + 1 => by
    rw [sumFirst, sumFirst_const k n]
    push_cast
    ring

theorem sumFirst_nonneg (f : Nat → Int) (n : Nat) (h : ∀ i, i < n → 0 ≤ f i) :
    0 ≤ sumFirst f n := by
  induction n with
  | zero => simp [sumFirst]
  | succ m ih =>
    rw [sumFirst]
    have := h m (by omega)
    have := ih fun i hi => h i (by omega)
    omega

theorem sumFirst_mono (f : Nat → Int) {a b : Nat} (hab : a ≤ b)
    (h : ∀ i, a ≤ i → i < b → 0 ≤ f i) :
    sumFirst f a ≤ sumFirst f b := by
  induction b with
  | zero =>
    have ha : a = 0 := by omega
    subst ha
    exact le_refl _
  | succ m ih =>
    rcases Nat.lt_or_ge a (m + 1) with hlt | hge
    · have h1 : sumFirst f a ≤ sumFirst f m :=
        ih (by omega) fun i hi him => h i hi (by omega)
      have h2 := h m (by omega) (by omega)
      rw [sumFirst]
      omega
    · have ha : a = m + 1 := by omega
      subst ha
      exact le_refl _

namespace VolumetricMesh

theorem vertPos_init_ok {S : Type} (Dim : Nat) (vert_num : Int) (vertices : Nat → S)
    (ele_num : Int) (elements : Nat → Int) (vert_per_ele : Nat → Int) (u : Bool)
    (i : Int) (h0 : 0 ≤ i) (hi : i < vert_num) :
    (init S Dim vert_num vertices ele_num elements vert_per_ele u).vertPos i =
      .ok ((List.range Dim).map fun d => vertices (Dim * i.toNat + d)) := by
  have hcond : ¬(i < 0 ∨ vert_num ≤ i) := by omega
  have h1 : ((Dim : Int) * i).toNat = Dim * i.toNat := by
    rw [toNat_mul_nonneg _ _ (Int.natCast_nonneg Dim) h0, Int.toNat_natCast]
  have h2 : (vert_num * (Dim : Int)).toNat = vert_num.toNat * Dim := by
    rw [toNat_mul_nonneg _ _ (by omega) (Int.natCast_nonneg Dim), Int.toNat_natCast]
  have hbound : ((Dim : Int) * i).toNat + Dim ≤ (vert_num * (Dim : Int)).toNat := by
    rw [h1, h2]
    have h3 : i.toNat + 1 ≤ vert_num.toNat := by omega
    calc Dim * i.toNat + Dim = (i.toNat + 1) * Dim := by ring
      _ ≤ vert_num.toNat * Dim := Nat.mul_le_mul_right Dim h3
  have hread := Buf.readMany_eq_map ⟨(vert_num * (Dim : Int)).toNat, vertices⟩
    Dim ((Dim : Int) * i) (by positivity) hbound
  simp only [vertPos, init, if_neg hcond, hread, h1]

theorem eleVertPos_mkUniform_eq {S : Type} (Dim : Nat) (vert_num : Int)
    (vertices : Nat → S) (ele_num : Int) (elements : Nat → Int) (k : Int)
    (e l : Int) (he0 : 0 ≤ e) (he : e < ele_num) (hl0 : 0 ≤ l) (hl : l < k) :
    (mkUniform S Dim vert_num vertices ele_num elements k).eleVertPos e l =
      (mkUniform S Dim vert_num vertices ele_num elements k).vertPos
        (elements (e * k + l).toNat) := by
  have hk : 0 < k := lt_of_le_of_lt hl0 hl
  have hcond : ¬(e < 0 ∨ ele_num ≤ e) := by omega
  have hvcond : ¬(l < 0 ∨ k ≤ l) := by omega
  have hslot0 : 0 ≤ e * k + l := by
    have := mul_nonneg he0 hk.le
    omega
  have hslot : e * k + l < ele_num * k := by
    have h4 : (e + 1) * k ≤ ele_num * k :=
      mul_le_mul_of_nonneg_right (by omega) hk.le
    nlinarith
  have hkread : (⟨1, fun _ => k⟩ : Buf Int).read? 0 = some k := by
    simp [Buf.read?]
  have helread : (⟨(ele_num * k).toNat, elements⟩ : Buf Int).read? (e * k + l) =
      some (elements (e * k + l).toNat) :=
    Buf.read?_eq_some _ _ hslot0
      (show (e * k + l).toNat < (ele_num * k).toNat by omega)
  simp only [eleVertPos, mkUniform, init, if_neg hcond, if_true, hkread,
    if_neg hvcond, helread]

theorem eleVertPos_mkRagged_eq {S : Type} (Dim : Nat) (vert_num : Int)
    (vertices : Nat → S) (ele_num : Int) (elements : Nat → Int) (cs : Nat → Int)
    (hcs : ∀ i, i < ele_num.toNat → 0 ≤ cs i)
    (e l : Int) (he0 : 0 ≤ e) (he : e < ele_num) (hl0 : 0 ≤ l)
    (hl : l < cs e.toNat) :
    (mkRagged S Dim vert_num vertices ele_num elements cs).eleVertPos e l =
      (mkRagged S Dim vert_num vertices ele_num elements cs).vertPos
        (elements (sumFirst cs e.toNat + l).toNat) := by
  have hcond : ¬(e < 0 ∨ ele_num ≤ e) := by omega
  have hvcond : ¬(l < 0 ∨ cs e.toNat ≤ l) := by omega
  have hetoNat : e.toNat < ele_num.toNat := by omega
  have hkread : (⟨ele_num.toNat, cs⟩ : Buf Int).read? e = some (cs e.toNat) :=
    Buf.read?_eq_some _ _ he0 hetoNat
  have hsum : (⟨ele_num.toNat, cs⟩ : Buf Int).sumRange e.toNat =
      some (sumFirst cs e.toNat) :=
    Buf.sumRange_eq_sumFirst _ _ (show e.toNat ≤ ele_num.toNat by omega)
  have hstart0 : 0 ≤ sumFirst cs e.toNat :=
    sumFirst_nonneg cs e.toNat fun i hi => hcs i (by omega)
  have hstartlt : sumFirst cs e.toNat + l < sumFirst cs ele_num.toNat := by
    have hstep : sumFirst cs (e.toNat + 1) = sumFirst cs e.toNat + cs e.toNat :=
      rfl
    have hmono : sumFirst cs (e.toNat + 1) ≤ sumFirst cs ele_num.toNat :=
      sumFirst_mono cs (by omega) fun i _ hi => hcs i hi
    omega
  have helread : (⟨(sumFirst cs ele_num.toNat).toNat, elements⟩ : Buf Int).read?
      (sumFirst cs e.toNat + l) =
      some (elements (sumFirst cs e.toNat + l).toNat) :=
    Buf.read?_eq_some _ _ (by omega)
      (show (sumFirst cs e.toNat + l).toNat < (sumFirst cs ele_num.toNat).toNat
        by omega)
  simp only [eleVertPos, mkRagged, init, if_neg hcond, Bool.false_eq_true,
    if_false, hkread, if_neg hvcond, hsum, helread]

theorem vertPos_fatal_of_out_of_range {S : Type} {Dim : Nat}
    (m : VolumetricMesh S Dim) (i : Int) (h : i < 0 ∨ m.vert_num_ ≤ i) :
    m.vertPos i = .fatal "vertex index out of range!" := by
  unfold vertPos
  rw [if_pos h]

theorem vertPos_not_fatal_of_in_range {S : Type} {Dim : Nat}
    (m : VolumetricMesh S Dim) (i : Int) (h : ¬(i < 0 ∨ m.vert_num_ ≤ i)) :
    (m.vertPos i).isFatal = false := by
  unfold vertPos
  rw [if_neg h]
  cases hr : m.vertices_.readMany ((Dim : Int) * i) Dim <;>
    simp [QueryResult.isFatal]

end VolumetricMesh

/-! ### Concrete instances used by witnesses and counterexamples -/

/-- Concrete 2D vertex array: scalar slot `j` holds `10*j`
(vertex `i` is the pair `(20*i, 20*i+10)`). -/
def cVerts : Nat → Int := fun j => 10 * (j : Int)

/-- Concrete uniform connectivity: triangles `[[0,1,2],[1,3,2]]`. -/
def cEles : Nat → Int := fun j => [0, 1, 2, 1, 3, 2].getD j 0

/-- Concrete ragged connectivity, 7 slots holding `[0,1,2,3,2,1,0]`. -/
def cEles7 : Nat → Int := fun j => [0, 1, 2, 3, 2, 1, 0].getD j 0

/-- Ragged per-element vertex counts `[3,4]`: a triangle then a quad. -/
def raggedCounts34 : Nat → Int := fun i => [3, 4].getD i 0

/-- Connectivity whose slot 2 holds the dangling vertex index 99. -/
def cElesBad : Nat → Int := fun j => [0, 1, 99].getD j 0

theorem beqV_eq_true_iff {S : Type} [DecidableEq S] (a b : Vector2D S) :
    a.beqV b = true ↔ a.x = b.x ∧ a.y = b.y := by
  unfold Vector2D.beqV
  split
  · simp_all
  · split <;> simp_all

/-! ### Claims -/

/-- C1: a mesh constructed from a vertex array `V` of `vert_num*Dim` scalars
(uniform or ragged overload) reads back, for every in-range `i`, exactly the
scalars `V[Dim*i .. Dim*i+Dim-1]` from `vertPos(i)`; and `eleVertPos(e, l)`
returns exactly the position of the vertex whose index sits at element `e`'s
`l`-th connectivity slot of the input element array. (Queries are pure
functions of the constructed state, so they never alter the data.) -/
theorem mesh_copy_roundtrip {S : Type} (Dim : Nat) (vert_num : Int)
    (vertices : Nat → S) (ele_num : Int) (elements : Nat → Int) (k : Int)
    (cs : Nat → Int) (_hvn : 0 ≤ vert_num) :
    (∀ i : Int, 0 ≤ i → i < vert_num →
      (VolumetricMesh.mkUniform S Dim vert_num vertices ele_num elements
        k).vertPos i =
        .ok ((List.range Dim).map fun d => vertices (Dim * i.toNat + d))) ∧
    (∀ i : Int, 0 ≤ i → i < vert_num →
      (VolumetricMesh.mkRagged S Dim vert_num vertices ele_num elements
        cs).vertPos i =
        .ok ((List.range Dim).map fun d => vertices (Dim * i.toNat + d))) ∧
    (∀ e l : Int, 0 ≤ e → e < ele_num → 0 ≤ l → l < k →
      (VolumetricMesh.mkUniform S Dim vert_num vertices ele_num elements
        k).eleVertPos e l =
        (VolumetricMesh.mkUniform S Dim vert_num vertices ele_num elements
          k).vertPos (elements (e * k + l).toNat)) ∧
    (∀ e l : Int, (∀ j, j < ele_num.toNat → 0 ≤ cs j) → 0 ≤ e → e < ele_num →
      0 ≤ l → l < cs e.toNat →
      (VolumetricMesh.mkRagged S Dim vert_num vertices ele_num elements
        cs).eleVertPos e l =
        (VolumetricMesh.mkRagged S Dim vert_num vertices ele_num elements
          cs).vertPos (elements (sumFirst cs e.toNat + l).toNat)) := by
  refine ⟨?_, ?_, ?_, ?_⟩
  · intro i h0 hi
    exact VolumetricMesh.vertPos_init_ok Dim vert_num vertices ele_num elements
      (fun _ => k) true i h0 hi
  · intro i h0 hi
    exact VolumetricMesh.vertPos_init_ok Dim vert_num vertices ele_num elements
      cs false i h0 hi
  · intro e l he0 he hl0 hl
    exact VolumetricMesh.eleVertPos_mkUniform_eq Dim vert_num vertices ele_num
      elements k e l he0 he hl0 hl
  · intro e l hcs he0 he hl0 hl
    exact VolumetricMesh.eleVertPos_mkRagged_eq Dim vert_num vertices ele_num
      elements cs hcs e l he0 he hl0 hl

/-- Witness for C1: the concrete 2-triangle mesh (uniform) and the
triangle+quad mesh (ragged). Vertex 2 of `cVerts` is `(40, 50)`. -/
theorem mesh_copy_roundtrip_witness :
    (VolumetricMesh.mkUniform Int 2 4 cVerts 2 cEles 3).vertPos 2 =
      .ok [40, 50] ∧
    (VolumetricMesh.mkUniform Int 2 4 cVerts 2 cEles 3).eleVertPos 1 2 =
      .ok [40, 50] ∧
    (VolumetricMesh.mkRagged Int 2 4 cVerts 2 cEles7
      raggedCounts34).eleVertPos 1 1 = .ok [40, 50] := by
  have h1 := mesh_copy_roundtrip (S := Int) 2 4 cVerts 2 cEles 3
    raggedCounts34 (by decide)
  have h2 := mesh_copy_roundtrip (S := Int) 2 4 cVerts 2 cEles7 3
    raggedCounts34 (by decide)
  refine ⟨?_, ?_, ?_⟩
  · rw [h1.1 2 (by decide) (by decide)]
    decide
  · rw [h1.2.2.1 1 2 (by decide) (by decide) (by decide) (by decide)]
    decide
  · rw [h2.2.2.2 1 1 (by decide) (by decide) (by decide) (by decide)
      (by decide)]
    decide

/-- C2: for `k > 0`, a uniform mesh with `vert_per_ele = k` and a ragged
mesh whose count list is `k` repeated agree on `vertNum`, `eleNum`,
in-range `eleVertNum`, in-range `vertPos` and in-range `eleVertPos`; only
`isUniformElementType` differs (`true` vs `false`). -/
theorem uniform_ragged_equivalence {S : Type} (Dim : Nat) (vert_num : Int)
    (vertices : Nat → S) (ele_num : Int) (elements : Nat → Int) (k : Int)
    (hk : 0 < k) (hen : 0 ≤ ele_num) :
    (VolumetricMesh.mkUniform S Dim vert_num vertices ele_num elements
      k).vertNum =
      (VolumetricMesh.mkRagged S Dim vert_num vertices ele_num elements
        fun _ => k).vertNum ∧
    (VolumetricMesh.mkUniform S Dim vert_num vertices ele_num elements
      k).eleNum =
      (VolumetricMesh.mkRagged S Dim vert_num vertices ele_num elements
        fun _ => k).eleNum ∧
    (∀ i : Int, 0 ≤ i → i < ele_num →
      (VolumetricMesh.mkUniform S Dim vert_num vertices ele_num elements
        k).eleVertNum i =
        (VolumetricMesh.mkRagged S Dim vert_num vertices ele_num elements
          fun _ => k).eleVertNum i) ∧
    (∀ i : Int, 0 ≤ i → i < vert_num →
      (VolumetricMesh.mkUniform S Dim vert_num vertices ele_num elements
        k).vertPos i =
        (VolumetricMesh.mkRagged S Dim vert_num vertices ele_num elements
          fun _ => k).vertPos i) ∧
    (∀ e l : Int, 0 ≤ e → e < ele_num → 0 ≤ l → l < k →
      (VolumetricMesh.mkUniform S Dim vert_num vertices ele_num elements
        k).eleVertPos e l =
        (VolumetricMesh.mkRagged S Dim vert_num vertices ele_num elements
          fun _ => k).eleVertPos e l) ∧
    (VolumetricMesh.mkUniform S Dim vert_num vertices ele_num elements
      k).isUniformElementType = true ∧
    (VolumetricMesh.mkRagged S Dim vert_num vertices ele_num elements
      fun _ => k).isUniformElementType = false := by
  refine ⟨rfl, rfl, ?_, ?_, ?_, rfl, rfl⟩
  · intro i h0 hi
    have hru : (⟨1, fun _ => k⟩ : Buf Int).read? 0 = some k := by
      simp [Buf.read?]
    have hrr : (⟨ele_num.toNat, fun _ => k⟩ : Buf Int).read? i = some k :=
      Buf.read?_eq_some _ _ h0 (show i.toNat < ele_num.toNat by omega)
    simp only [VolumetricMesh.eleVertNum, VolumetricMesh.mkUniform,
      VolumetricMesh.mkRagged, VolumetricMesh.init, if_true,
      Bool.false_eq_true, if_false, hru, hrr]
  · intro i _ _
    rfl
  · intro e l he0 he hl0 hl
    rw [VolumetricMesh.eleVertPos_mkUniform_eq Dim vert_num vertices ele_num
      elements k e l he0 he hl0 hl]
    rw [VolumetricMesh.eleVertPos_mkRagged_eq Dim vert_num vertices ele_num
      elements (fun _ => k) (fun _ _ => hk.le) e l he0 he hl0
      (by simpa using hl)]
    rw [sumFirst_const k e.toNat, Int.toNat_of_nonneg he0]
    rfl

/-- Witness for C2 on the concrete 2-triangle mesh with `k = 3`. -/
theorem uniform_ragged_equivalence_witness :
    (VolumetricMesh.mkUniform Int 2 4 cVerts 2 cEles 3).eleVertPos 1 2 =
      (VolumetricMesh.mkRagged Int 2 4 cVerts 2 cEles
        fun _ => 3).eleVertPos 1 2 ∧
    (VolumetricMesh.mkUniform Int 2 4 cVerts 2 cEles 3).eleVertNum 0 =
      (VolumetricMesh.mkRagged Int 2 4 cVerts 2 cEles
        fun _ => 3).eleVertNum 0 ∧
    (VolumetricMesh.mkUniform Int 2 4 cVerts 2 cEles
      3).isUniformElementType = true ∧
    (VolumetricMesh.mkRagged Int 2 4 cVerts 2 cEles
      fun _ => 3).isUniformElementType = false := by
  have h := uniform_ragged_equivalence (S := Int) 2 4 cVerts 2 cEles 3
    (by decide) (by decide)
  exact ⟨h.2.2.2.2.1 1 2 (by decide) (by decide) (by decide) (by decide),
    h.2.2.1 0 (by decide) (by decide), h.2.2.2.2.2.1, h.2.2.2.2.2.2⟩

/-- C3: in the ragged case `eleVertPos(e, l)` reads the connectivity buffer
at offset `(sum of vert_per_ele_[0..e-1]) + l`; concretely, with per-element
counts `[3,4]` and connectivity `[0,1,2,3,2,1,0]`, `eleVertPos(1, 0)` reads
offset 3 (which holds vertex index 3, position `(60,70)`), not offset 4
(which holds vertex index 2, position `(40,50)`). -/
theorem ragged_connectivity_offset {S : Type} (Dim : Nat) (vert_num : Int)
    (vertices : Nat → S) (ele_num : Int) (elements : Nat → Int)
    (cs : Nat → Int) (e l : Int)
    (hcs : ∀ j, j < ele_num.toNat → 0 ≤ cs j) (he0 : 0 ≤ e)
    (he : e < ele_num) (hl0 : 0 ≤ l) (hl : l < cs e.toNat) :
    (VolumetricMesh.mkRagged S Dim vert_num vertices ele_num elements
      cs).eleVertPos e l =
      (VolumetricMesh.mkRagged S Dim vert_num vertices ele_num elements
        cs).vertPos (elements (sumFirst cs e.toNat + l).toNat) ∧
    (VolumetricMesh.mkRagged Int 2 4 cVerts 2 cEles7
      raggedCounts34).eleVertPos 1 0 =
      (VolumetricMesh.mkRagged Int 2 4 cVerts 2 cEles7
        raggedCounts34).vertPos (cEles7 3) ∧
    (VolumetricMesh.mkRagged Int 2 4 cVerts 2 cEles7
      raggedCounts34).eleVertPos 1 0 = .ok [60, 70] ∧
    (VolumetricMesh.mkRagged Int 2 4 cVerts 2 cEles7
      raggedCounts34).vertPos (cEles7 4) = .ok [40, 50] := by
  refine ⟨VolumetricMesh.eleVertPos_mkRagged_eq Dim vert_num vertices ele_num
    elements cs hcs e l he0 he hl0 hl, ?_, ?_, ?_⟩ <;> decide

/-- Witness for C3 at the concrete triangle+quad mesh, `e = 1`, `l = 0`. -/
theorem ragged_connectivity_offset_witness :
    (VolumetricMesh.mkRagged Int 2 4 cVerts 2 cEles7
      raggedCounts34).eleVertPos 1 0 =
      (VolumetricMesh.mkRagged Int 2 4 cVerts 2 cEles7
        raggedCounts34).vertPos
        (cEles7 (sumFirst raggedCounts34 (1 : Int).toNat + 0).toNat) :=
  (ragged_connectivity_offset 2 4 cVerts 2 cEles7 raggedCounts34 1 0
    (by decide) (by decide) (by decide) (by decide) (by decide)).1

/-- C4: on a mesh with valid connectivity, `vertPos(-1)`,
`vertPos(vertNum())`, `eleVertPos(eleNum(), 0)` and
`eleVertPos(0, eleVertNum(0))` each take the fatal out-of-range path
(diagnostic and termination), while every in-range query does not. -/
theorem bounds_enforcement {S : Type} {Dim : Nat} (m : VolumetricMesh S Dim)
    (hval : ∀ j : Nat, j < m.elements_.len →
      0 ≤ m.elements_.data j ∧ m.elements_.data j < m.vert_num_) :
    (m.vertPos (-1)).isFatal = true ∧
    (m.vertPos m.vertNum).isFatal = true ∧
    (m.eleVertPos m.eleNum 0).isFatal = true ∧
    (∀ kk : Int, m.eleVertNum 0 = .ok kk →
      (m.eleVertPos 0 kk).isFatal = true) ∧
    (∀ i : Int, 0 ≤ i → i < m.vertNum → (m.vertPos i).isFatal = false) ∧
    (∀ e l kk : Int, 0 ≤ e → e < m.eleNum → m.eleVertNum e = .ok kk →
      0 ≤ l → l < kk → (m.eleVertPos e l).isFatal = false) := by
  refine ⟨?_, ?_, ?_, ?_, ?_, ?_⟩
  · rw [VolumetricMesh.vertPos_fatal_of_out_of_range m (-1)
      (Or.inl (by norm_num))]
    rfl
  · rw [VolumetricMesh.vertPos_fatal_of_out_of_range m m.vertNum
      (Or.inr (le_refl m.vert_num_))]
    rfl
  · unfold VolumetricMesh.eleVertPos
    rw [if_pos (show m.eleNum < 0 ∨ m.ele_num_ ≤ m.eleNum from
      Or.inr (le_refl m.ele_num_))]
    rfl
  · intro kk hkk
    unfold VolumetricMesh.eleVertNum at hkk
    unfold VolumetricMesh.eleVertPos
    by_cases hm : m.ele_num_ ≤ 0
    · rw [if_pos (show (0 : Int) < 0 ∨ m.ele_num_ ≤ 0 from Or.inr hm)]
      rfl
    · rw [if_neg (by omega)]
      by_cases hu : m.uniform_ele_type_
      · rw [if_pos hu]
        rw [if_pos hu] at hkk
        cases hr : m.vert_per_ele_.read? 0 with
        | none => rw [hr] at hkk; exact absurd hkk (by simp)
        | some kv =>
          rw [hr] at hkk
          have hkv : kv = kk := by simpa using hkk
          subst hkv
          simp only [hr]
          rw [if_pos (show kv < 0 ∨ kv ≤ kv from Or.inr (le_refl kv))]
          rfl
      · rw [if_neg hu]
        rw [if_neg hu] at hkk
        cases hr : m.vert_per_ele_.read? 0 with
        | none => rw [hr] at hkk; exact absurd hkk (by simp)
        | some kv =>
          rw [hr] at hkk
          have hkv : kv = kk := by simpa using hkk
          subst hkv
          simp only [hr]
          rw [if_pos (show kv < 0 ∨ kv ≤ kv from Or.inr (le_refl kv))]
          rfl
  · intro i h0 hi
    have hi' : i < m.vert_num_ := hi
    exact VolumetricMesh.vertPos_not_fatal_of_in_range m i (by omega)
  · intro e l kk he0 he hkk hl0 hl
    have he' : e < m.ele_num_ := he
    unfold VolumetricMesh.eleVertNum at hkk
    unfold VolumetricMesh.eleVertPos
    rw [if_neg (by omega)]
    by_cases hu : m.uniform_ele_type_
    · rw [if_pos hu]
      rw [if_pos hu] at hkk
      cases hr : m.vert_per_ele_.read? 0 with
      | none => rw [hr] at hkk; exact absurd hkk (by simp)
      | some kv =>
        rw [hr] at hkk
        have hkv : kv = kk := by simpa using hkk
        subst hkv
        simp only [hr]
        rw [if_neg (by omega)]
        cases hg : m.elements_.read? (e * kv + l) with
        | none => simp only [hg]; rfl
        | some g =>
          simp only [hg]
          obtain ⟨hg0, hglen, hgdata⟩ := Buf.of_read?_eq_some hg
          obtain ⟨hga, hgb⟩ := hval _ hglen
          exact VolumetricMesh.vertPos_not_fatal_of_in_range m g (by omega)
    · rw [if_neg hu]
      rw [if_neg hu] at hkk
      cases hr : m.vert_per_ele_.read? e with
      | none => rw [hr] at hkk; exact absurd hkk (by simp)
      | some kv =>
        rw [hr] at hkk
        have hkv : kv = kk := by simpa using hkk
        subst hkv
        simp only [hr]
        rw [if_neg (by omega)]
        cases hs : m.vert_per_ele_.sumRange e.toNat with
        | none => simp only [hs]; rfl
        | some start =>
          simp only [hs]
          cases hg : m.elements_.read? (start + l) with
          | none => simp only [hg]; rfl
          | some g =>
            simp only [hg]
            obtain ⟨hg0, hglen, hgdata⟩ := Buf.of_read?_eq_some hg
            obtain ⟨hga, hgb⟩ := hval _ hglen
            exact VolumetricMesh.vertPos_not_fatal_of_in_range m g (by omega)

/-- Witness for C4 on the concrete uniform 2-triangle mesh. -/
theorem bounds_enforcement_witness :
    ((VolumetricMesh.mkUniform Int 2 4 cVerts 2 cEles 3).vertPos
      (-1)).isFatal = true ∧
    ((VolumetricMesh.mkUniform Int 2 4 cVerts 2 cEles 3).vertPos
      (VolumetricMesh.mkUniform Int 2 4 cVerts 2 cEles 3).vertNum).isFatal =
      true ∧
    ((VolumetricMesh.mkUniform Int 2 4 cVerts 2 cEles 3).eleVertPos
      (VolumetricMesh.mkUniform Int 2 4 cVerts 2 cEles 3).eleNum 0).isFatal =
      true ∧
    ((VolumetricMesh.mkUniform Int 2 4 cVerts 2 cEles 3).eleVertPos
      0 3).isFatal = true ∧
    ((VolumetricMesh.mkUniform Int 2 4 cVerts 2 cEles 3).vertPos
      2).isFatal = false ∧
    ((VolumetricMesh.mkUniform Int 2 4 cVerts 2 cEles 3).eleVertPos
      1 2).isFatal = false := by
  have h := bounds_enforcement
    (VolumetricMesh.mkUniform Int 2 4 cVerts 2 cEles 3) (by decide)
  exact ⟨h.1, h.2.1, h.2.2.1, h.2.2.2.1 3 (by decide),
    h.2.2.2.2.1 2 (by decide) (by decide),
    h.2.2.2.2.2 1 2 3 (by decide) (by decide) (by decide) (by decide)
      (by decide)⟩

/-- C5 (amended): `eleVertNum` performs no index validation at all. In the
uniform case it returns the shared count for every `ele_idx`, in-range or
not; in the ragged case it returns `vert_per_ele_[ele_idx]` for in-range
`ele_idx`, and for out-of-range `ele_idx` performs an unchecked
out-of-bounds array read (undefined behavior) — it never takes the fatal
diagnostic path. -/
theorem eleVertNum_no_validation {S : Type} (Dim : Nat) (vert_num : Int)
    (vertices : Nat → S) (ele_num : Int) (elements : Nat → Int) (k : Int)
    (cs : Nat → Int) (hen : 0 ≤ ele_num) :
    (∀ e : Int,
      (VolumetricMesh.mkUniform S Dim vert_num vertices ele_num elements
        k).eleVertNum e = .ok k) ∧
    (∀ e : Int, 0 ≤ e → e < ele_num →
      (VolumetricMesh.mkRagged S Dim vert_num vertices ele_num elements
        cs).eleVertNum e = .ok (cs e.toNat)) ∧
    (∀ e : Int, e < 0 ∨ ele_num ≤ e →
      (VolumetricMesh.mkRagged S Dim vert_num vertices ele_num elements
        cs).eleVertNum e = .ub) := by
  refine ⟨?_, ?_, ?_⟩
  · intro e
    have hru : (⟨1, fun _ => k⟩ : Buf Int).read? 0 = some k := by
      simp [Buf.read?]
    simp only [VolumetricMesh.eleVertNum, VolumetricMesh.mkUniform,
      VolumetricMesh.init, if_true, hru]
  · intro e h0 hi
    have hrr := Buf.read?_eq_some (⟨ele_num.toNat, cs⟩ : Buf Int) e h0
      (show e.toNat < ele_num.toNat by omega)
    simp only [VolumetricMesh.eleVertNum, VolumetricMesh.mkRagged,
      VolumetricMesh.init, Bool.false_eq_true, if_false, hrr]
  · intro e hout
    have hcond : ¬(0 ≤ e ∧ e.toNat < ele_num.toNat) := by omega
    have hrr : (⟨ele_num.toNat, cs⟩ : Buf Int).read? e = none := by
      unfold Buf.read?
      exact if_neg hcond
    simp only [VolumetricMesh.eleVertNum, VolumetricMesh.mkRagged,
      VolumetricMesh.init, Bool.false_eq_true, if_false, hrr]

/-- Counterexample to C5 as stated: on the ragged `[3,4]` mesh,
`eleVertNum(2)` is out of range yet does not take the fatal path. -/
theorem eleVertNum_ragged_oob_not_fatal :
    ((2 : Int) < 0 ∨
      (VolumetricMesh.mkRagged Int 2 4 cVerts 2 cEles7
        raggedCounts34).eleNum ≤ 2) ∧
    ((VolumetricMesh.mkRagged Int 2 4 cVerts 2 cEles7
      raggedCounts34).eleVertNum 2).isFatal = false := by
  decide

/-- Witness for C5 (amended) on the concrete meshes. -/
theorem eleVertNum_no_validation_witness :
    (VolumetricMesh.mkUniform Int 2 4 cVerts 2 cEles 3).eleVertNum 100 =
      .ok 3 ∧
    (VolumetricMesh.mkRagged Int 2 4 cVerts 2 cEles7
      raggedCounts34).eleVertNum 1 = .ok 4 ∧
    (VolumetricMesh.mkRagged Int 2 4 cVerts 2 cEles7
      raggedCounts34).eleVertNum 5 = .ub := by
  refine ⟨(eleVertNum_no_validation (S := Int) 2 4 cVerts 2 cEles 3
    raggedCounts34 (by decide)).1 100, ?_, ?_⟩
  · have h2 := (eleVertNum_no_validation (S := Int) 2 4 cVerts 2 cEles7 3
      raggedCounts34 (by decide)).2.1 1 (by decide) (by decide)
    rw [h2]
    decide
  · exact (eleVertNum_no_validation (S := Int) 2 4 cVerts 2 cEles7 3
      raggedCounts34 (by decide)).2.2 5 (by decide)

/-- C6: construction with a dangling vertex index in the connectivity array
succeeds with no error (the accessors report the given counts); the
violation surfaces only later, as the fatal out-of-range error inside
`vertPos`, when `eleVertPos` reaches the slot holding the dangling index. -/
theorem dangling_index_surfaces_in_vertPos {S : Type} (Dim : Nat)
    (vert_num : Int) (vertices : Nat → S) (ele_num : Int)
    (elements : Nat → Int) (cs : Nat → Int) (u : Bool) (e l g ke : Int)
    (he0 : 0 ≤ e) (he : e < ele_num)
    (hke : (VolumetricMesh.init S Dim vert_num vertices ele_num elements cs
      u).eleVertNum e = .ok ke)
    (hl0 : 0 ≤ l) (hl : l < ke)
    (hread : (VolumetricMesh.init S Dim vert_num vertices ele_num elements cs
      u).elements_.read?
      ((if u then e * ke else sumFirst cs e.toNat) + l) = some g)
    (hg : g < 0 ∨ vert_num ≤ g) :
    (VolumetricMesh.init S Dim vert_num vertices ele_num elements cs
      u).vertNum = vert_num ∧
    (VolumetricMesh.init S Dim vert_num vertices ele_num elements cs
      u).eleNum = ele_num ∧
    (VolumetricMesh.init S Dim vert_num vertices ele_num elements cs
      u).eleVertPos e l = .fatal "vertex index out of range!" := by
  refine ⟨rfl, rfl, ?_⟩
  have hcond : ¬(e < 0 ∨ ele_num ≤ e) := by omega
  cases u with
  | true =>
    have hr : (⟨1, cs⟩ : Buf Int).read? 0 = some (cs 0) :=
      Buf.read?_eq_some _ _ (by norm_num) (by norm_num)
    simp only [VolumetricMesh.eleVertNum, VolumetricMesh.init, if_true,
      hr] at hke
    have hke' : cs 0 = ke := by simpa using hke
    subst hke'
    simp only [if_true, VolumetricMesh.init] at hread
    simp only [VolumetricMesh.eleVertPos, VolumetricMesh.init, if_true,
      if_neg hcond, hr, if_neg (show ¬(l < 0 ∨ cs 0 ≤ l) by omega), hread]
    exact VolumetricMesh.vertPos_fatal_of_out_of_range _ g hg
  | false =>
    have hr : (⟨ele_num.toNat, cs⟩ : Buf Int).read? e = some (cs e.toNat) :=
      Buf.read?_eq_some _ _ he0 (show e.toNat < ele_num.toNat by omega)
    simp only [VolumetricMesh.eleVertNum, VolumetricMesh.init,
      Bool.false_eq_true, if_false, hr] at hke
    have hke' : cs e.toNat = ke := by simpa using hke
    subst hke'
    simp only [Bool.false_eq_true, if_false, VolumetricMesh.init] at hread
    have hsum : (⟨ele_num.toNat, cs⟩ : Buf Int).sumRange e.toNat =
        some (sumFirst cs e.toNat) :=
      Buf.sumRange_eq_sumFirst _ _ (show e.toNat ≤ ele_num.toNat by omega)
    simp only [VolumetricMesh.eleVertPos, VolumetricMesh.init,
      Bool.false_eq_true, if_false, if_neg hcond, hr,
      if_neg (show ¬(l < 0 ∨ cs e.toNat ≤ l) by omega), hsum, hread]
    exact VolumetricMesh.vertPos_fatal_of_out_of_range _ g hg

/-- Witness for C6: a uniform mesh over 4 vertices whose single element has
connectivity `[0, 1, 99]`; slot 2 holds the dangling index 99. -/
theorem dangling_index_surfaces_in_vertPos_witness :
    (VolumetricMesh.init Int 2 4 cVerts 1 cElesBad (fun _ => 3)
      true).vertNum = 4 ∧
    (VolumetricMesh.init Int 2 4 cVerts 1 cElesBad (fun _ => 3)
      true).eleNum = 1 ∧
    (VolumetricMesh.init Int 2 4 cVerts 1 cElesBad (fun _ => 3)
      true).eleVertPos 0 2 = .fatal "vertex index out of range!" :=
  dangling_index_surfaces_in_vertPos 2 4 cVerts 1 cElesBad (fun _ => 3) true
    0 2 99 3 (by decide) (by decide) (by decide) (by decide) (by decide)
    (by decide) (by decide)

/-- C7: for every 2D vector `v`, when `v.norm()` is nonzero `normalize()`
replaces each component `c` with `c / v.norm()`, and when `v.norm()` is
exactly zero it leaves both components unchanged (no failure). -/
theorem normalize_divides_by_norm_or_keeps_zero (v : Physika.Vector2D ℝ) :
    (v.norm ≠ 0 → v.normalize = ⟨v.x / v.norm, v.y / v.norm⟩) ∧
    (v.norm = 0 → v.normalize = v) := by
  constructor <;> intro h <;> simp [Physika.Vector2D.normalize, h]

/-- Witness for C7 at `v = (3,4)` (norm 5) and `v = (0,0)` (norm 0). -/
theorem normalize_divides_by_norm_or_keeps_zero_witness :
    Physika.Vector2D.normalize ⟨3, 4⟩ = ⟨3 / 5, 4 / 5⟩ ∧
    Physika.Vector2D.normalize ⟨0, 0⟩ = ⟨0, 0⟩ := by
  have h5 : (Physika.Vector2D.mk (3 : ℝ) 4).norm = 5 := by
    simp only [Physika.Vector2D.norm]
    rw [show (3 : ℝ) * 3 + 4 * 4 = 5 ^ 2 by norm_num,
      Real.sqrt_sq (by norm_num : (0 : ℝ) ≤ 5)]
  have h0 : (Physika.Vector2D.mk (0 : ℝ) 0).norm = 0 := by
    simp [Physika.Vector2D.norm]
  constructor
  · have h := (normalize_divides_by_norm_or_keeps_zero ⟨3, 4⟩).1
      (by rw [h5]; norm_num)
    rw [h, h5]
  · exact (normalize_divides_by_norm_or_keeps_zero ⟨0, 0⟩).2 h0

/-- C8: `a.dot(b) = a[0]*b[0] + a[1]*b[1]` and
`a.cross(b) = a[0]*b[1] - a[1]*b[0]` for all 2D vectors; for the unit basis
vectors `e0 = (1,0)`, `e1 = (0,1)`: `e0.dot(e1) = 0`, `e0.cross(e1) = 1`,
`e1.cross(e0) = -1`. -/
theorem dot_cross_formulas (a b : Physika.Vector2D ℝ) :
    a.dot b = a.x * b.x + a.y * b.y ∧
    a.cross b = a.x * b.y - a.y * b.x ∧
    (Physika.Vector2D.mk (1 : ℝ) 0).dot ⟨0, 1⟩ = 0 ∧
    (Physika.Vector2D.mk (1 : ℝ) 0).cross ⟨0, 1⟩ = 1 ∧
    (Physika.Vector2D.mk (0 : ℝ) 1).cross ⟨1, 0⟩ = -1 := by
  refine ⟨rfl, rfl, ?_, ?_, ?_⟩ <;>
    simp [Physika.Vector2D.dot, Physika.Vector2D.cross]

/-- C9: vector addition is commutative and associative, and `a + (-a)` is
the zero vector `(0,0)`, under the vector's exact component-wise
`operator==`. -/
theorem add_comm_assoc_neg (a b c : Physika.Vector2D ℝ) :
    (a.add b).beqV (b.add a) = true ∧
    ((a.add b).add c).beqV (a.add (b.add c)) = true ∧
    (a.add a.neg).beqV ⟨0, 0⟩ = true := by
  refine ⟨?_, ?_, ?_⟩ <;>
    rw [beqV_eq_true_iff] <;>
    constructor <;>
    simp [Physika.Vector2D.add, Physika.Vector2D.neg] <;>
    ring

/-- C10: the copy constructor (which delegates to component-wise
`operator=` from an arbitrary uninitialized state) produces a vector that
compares equal to its source under `operator==`. -/
theorem copy_construct_beq {S : Type} [DecidableEq S]
    (v uninit : Physika.Vector2D S) :
    (v.copyConstruct uninit).beqV v = true := by
  rw [beqV_eq_true_iff]
  exact ⟨rfl, rfl⟩

end Physika
